import Mathlib

/-!
Verification of the cxxnet execution core: a shallow embedding of the
parameter-key encoder, the pooling layer's shape inference and backprop,
the instance store (`TensorVector` / `InstVector`), and the MNIST batch
iterator, together with theorems settling the specification's claims.

Machine integers are modelled as `Nat`/`Int`; where C++ unsigned wraparound
matters the reduction modulo `2^32` (`index_t`) or `2^64` (`size_t`) is
written explicitly.
-/

/-! ## Parameter key encoder (updater.h) -/

/-- Constant used to encode key index of the parameter server
(`kDataKeyStep` in updater.h). -/
def kDataKeyStep : Int := 4

/-- Embedding of `EncodeDataKey(layer_index, tag)`: `"bias"` maps to
`layer_index * kDataKeyStep + 1`, `"wmat"` to `layer_index * kDataKeyStep + 0`,
any other tag aborts with `utils::Error` (modelled as `none`). -/
def EncodeDataKey (layer_index : Int) (tag : String) : Option Int :=
  if tag = "bias" then some (layer_index * kDataKeyStep + 1)
  else if tag = "wmat" then some (layer_index * kDataKeyStep + 0)
  else none

/-- Embedding of `DecodeTag(key)`: a `switch` on `key % kDataKeyStep`
(C++ `%` on `int` is truncated division remainder, `Int.tmod`); cases `0`
and `1` return the tag, the default case aborts (modelled as `none`). -/
def DecodeTag (key : Int) : Option String :=
  if Int.tmod key kDataKeyStep = 0 then some "wmat"
  else if Int.tmod key kDataKeyStep = 1 then some "bias"
  else none

/-! ## Asynchronous updater (updater.h) -/

/-- A 2-D gradient tensor as passed to `IUpdater::Update(long, Tensor<xpu,2>)`. -/
def Tensor2 : Type := Nat → Nat → ℚ

/-- Embedding of `IAsyncUpdater::Update(long epoch)`: the body is an
unconditional `utils::Error`, modelled as an `Except.error` carrying the
exact message. -/
def IAsyncUpdater.UpdateEpoch (_epoch : Int) : Except String Unit :=
  Except.error "IAsyncUpdater.Update call AfterBackprop instead"

/-- Embedding of `IAsyncUpdater::Update(long epoch, Tensor<xpu,2> grad)`:
likewise an unconditional `utils::Error`. -/
def IAsyncUpdater.UpdateWithGrad (_epoch : Int) (_grad : Tensor2) : Except String Unit :=
  Except.error "IAsyncUpdater.Update call AfterBackprop instead"

/-! ## Pooling layer shape inference (pooling_layer-inl.hpp) -/

/-- The four dimensions of an `mshadow::Shape<4>` (batch, channel, height, width). -/
structure Shape4 where
  d0 : Nat
  d1 : Nat
  d2 : Nat
  d3 : Nat
deriving DecidableEq

/-- The fields of `LayerParam` used by `PoolingLayer` (all C++ `int`). -/
structure LayerParam where
  kernel_height : Int
  kernel_width : Int
  stride : Int
  pad_y : Int
  pad_x : Int
deriving DecidableEq

/-- Modulus of the 32-bit unsigned `mshadow::index_t`. -/
def U32 : Nat := 4294967296

/-- C++ conversion from `int` to a 32-bit unsigned integer (reduction mod `2^32`). -/
def icast (i : Int) : Nat := (i % (U32 : Int)).toNat

/-- 32-bit unsigned addition. -/
def uadd (a b : Nat) : Nat := (a + b) % U32

/-- 32-bit unsigned subtraction (wraps around mod `2^32`). -/
def usub (a b : Nat) : Nat := (a + (U32 - b % U32)) % U32

/-- 32-bit unsigned division (truncating; the C++ source never divides by zero
on the paths considered, where `stride > 0`). -/
def udiv (a b : Nat) : Nat := a / b

/-- Whether an `Except` computation succeeded. -/
def exceptOk {ε α : Type} : Except ε α → Bool
  | Except.ok _ => true
  | Except.error _ => false

/-- One output spatial dimension as computed in `PoolingLayer::InitNode`:
`min(H + 2*pad - ksize + kstride - 1, H + 2*pad - 1) / kstride + 1`,
every operation in 32-bit unsigned arithmetic (`py2` is the already-converted
`2 * pad`). -/
def poolOut (H py2 k s : Nat) : Nat :=
  uadd (udiv (min (usub (uadd (usub (uadd H py2) k) s) 1) (usub (uadd H py2) 1)) s) 1

/-- Embedding of `PoolingLayer::InitNode`: checks the 1-1 connection arity,
then `kernel_height > 0 && kernel_width > 0`, then
`ksize_x <= ishape[3] && ksize_y <= ishape[2]` (each failed `utils::Check`
aborts with the code's message), and finally produces the output shape and
the two connection-state buffer shapes `[oshape, ishape]`. -/
def PoolingLayer.InitNode (p : LayerParam) (nodes_in nodes_out : List Shape4) :
    Except String (Shape4 × List Shape4) :=
  if nodes_in.length = 1 ∧ nodes_out.length = 1 then
    let ishape := nodes_in.getD 0 ⟨0, 0, 0, 0⟩
    let ksize_y := icast p.kernel_height
    let ksize_x := icast p.kernel_width
    let kstride := icast p.stride
    if 0 < p.kernel_height ∧ 0 < p.kernel_width then
      if ksize_x ≤ ishape.d3 ∧ ksize_y ≤ ishape.d2 then
        let oshape : Shape4 :=
          ⟨ishape.d0, ishape.d1,
           poolOut ishape.d2 (icast (2 * p.pad_y)) ksize_y kstride,
           poolOut ishape.d3 (icast (2 * p.pad_x)) ksize_x kstride⟩
        Except.ok (oshape, [oshape, ishape])
      else Except.error "kernel size exceed input"
    else Except.error "must set kernel_size correctly"
  else Except.error "PoolingLayer: only support 1-1 connection"

/-- The specification's shape formula, written from the spec's words:
`outH = min(H + 2py - kh + s - 1, H + 2py - 1) / s + 1` in plain
(non-wrapping) integer arithmetic. -/
def poolOutFormula (H py k s : Nat) : Nat :=
  min (H + 2 * py - k + s - 1) (H + 2 * py - 1) / s + 1

/-! ## Instance store (inst_vector.h) -/

/-- Embedding of `TensorVector<dim, DType>`: the parallel offset table, the
contiguous content buffer, and the shape table (a shape is its list of
dimensions; `Shape::Size()` is their product). -/
structure TensorVector (α : Type) where
  offset : List Nat
  content : List α
  shape : List (List Nat)

/-- The state established by `TensorVector::Clear()` (also the state of a
freshly constructed vector, whose constructor calls `Clear`): one offset
entry `0`, no content, no shapes. -/
def TensorVector.Clear (α : Type) : TensorVector α := ⟨[0], [], []⟩

/-- `std::vector::resize(n)`: truncate to `n` elements or grow with
value-initialized (default) elements. -/
def listResize (c : List α) (n : Nat) (d : α) : List α :=
  c.take n ++ List.replicate (n - c.length) d

/-- Embedding of `TensorVector::Push(shape)`: append the shape, append
`offset_.back() + shape.Size()` to the offset table, and resize the content
buffer to the new back offset. -/
def TensorVector.Push [Inhabited α] (tv : TensorVector α) (s : List Nat) : TensorVector α :=
  ⟨tv.offset ++ [tv.offset.getLastD 0 + s.prod],
   listResize tv.content (tv.offset.getLastD 0 + s.prod) default,
   tv.shape ++ [s]⟩

/-- A sequence of pushes starting from a fresh/cleared store. -/
def TensorVector.pushAll (α : Type) [Inhabited α] (l : List (List Nat)) : TensorVector α :=
  l.foldl TensorVector.Push (TensorVector.Clear α)

/-- The elements visible through the view `operator[](i)` returns: the slice
of the shared buffer starting at `offset_[i]` of length `shape_[i].Size()`. -/
def TensorVector.view (tv : TensorVector α) (i : Nat) : List α :=
  (tv.content.drop (tv.offset.getD i 0)).take (tv.shape.getD i []).prod

/-- Writing elements through the view for index `i`: the slice of the shared
buffer starting at `offset_[i]` is overwritten in place. -/
def TensorVector.writeView (tv : TensorVector α) (i : Nat) (vals : List α) : TensorVector α :=
  ⟨tv.offset,
   tv.content.take (tv.offset.getD i 0) ++ vals ++
     tv.content.drop (tv.offset.getD i 0 + vals.length),
   tv.shape⟩

/-- The offset-table invariant of a `TensorVector` with `N` stored tensors:
`N+1` offsets starting at `0`, each step growing by the tensor's element
count, the buffer exactly as long as the last offset, and every offset within
the buffer. -/
structure TVInv {α : Type} (tv : TensorVector α) : Prop where
  osz : tv.offset.length = tv.shape.length + 1
  head : tv.offset.getD 0 0 = 0
  step : ∀ i, i < tv.shape.length →
    tv.offset.getD (i + 1) 0 = tv.offset.getD i 0 + (tv.shape.getD i []).prod
  clen : tv.content.length = tv.offset.getD tv.shape.length 0
  glast : tv.offset.getLastD 0 = tv.offset.getD tv.shape.length 0
  bound : ∀ i, i ≤ tv.shape.length → tv.offset.getD i 0 ≤ tv.content.length

/-- Modulus of the 64-bit unsigned `size_t`. -/
def U64 : Nat := 18446744073709551616

/-- Outcome classification for an element access: a failed `CHECK` (a clean
OutOfRange abort) versus an out-of-bounds `std::vector::operator[]` read
(undefined behavior). -/
inductive AccessErr where
  | checkFail
  | undefinedBehavior
deriving DecidableEq

/-- Embedding of `TensorVector::operator[](size_t i)` with exact `size_t`
semantics: first `CHECK(i + 1 < offset_.size())` (the sum wraps mod `2^64`),
then the reads `shape_[i]`, `offset_[i+1]`, `offset_[i]` (out of bounds is
undefined behavior), then `CHECK(shape_[i].Size() == offset_[i+1] -
offset_[i])` (unsigned subtraction); on success the returned tensor is the
pair (pointer offset into the shared buffer, shape) — a view, not a copy. -/
def TensorVector.getU (tv : TensorVector α) (i : Nat) : Except AccessErr (Nat × List Nat) :=
  if (i + 1) % U64 < tv.offset.length then
    match tv.shape.get? i, tv.offset.get? ((i + 1) % U64), tv.offset.get? i with
    | some sh, some o1, some o0 =>
        if sh.prod = (o1 + (U64 - o0 % U64)) % U64 then Except.ok (o0, sh)
        else Except.error AccessErr.checkFail
    | _, _, _ => Except.error AccessErr.undefinedBehavior
  else Except.error AccessErr.checkFail

/-- Embedding of `TensorVector::Back()`: `(*this)[Size() - 1]`, where the
subtraction is on `size_t` and wraps on an empty store. -/
def TensorVector.BackU (tv : TensorVector α) : Except AccessErr (Nat × List Nat) :=
  tv.getU ((tv.shape.length + (U64 - 1)) % U64)

/-- Embedding of `InstVector`: the per-instance index plus the data and label
tensor stores. -/
structure InstVector where
  index : List Nat
  data : TensorVector ℚ
  label : TensorVector ℚ

/-- Embedding of `InstVector::operator[](size_t i)`: reads `index_[i]` with
an *unchecked* `std::vector::operator[]` (out of bounds is undefined
behavior), then `data_[i]` and `label_[i]` through `TensorVector`. -/
def InstVector.atU (iv : InstVector) (i : Nat) :
    Except AccessErr (Nat × (Nat × List Nat) × (Nat × List Nat)) :=
  match iv.index.get? i with
  | none => Except.error AccessErr.undefinedBehavior
  | some idx =>
    match iv.data.getU i with
    | Except.error e => Except.error e
    | Except.ok dv =>
      match iv.label.getU i with
      | Except.error e => Except.error e
      | Except.ok lv => Except.ok (idx, dv, lv)

/-- Embedding of `InstVector::Back()`: `(*this)[Size() - 1]` on `size_t`. -/
def InstVector.BackU (iv : InstVector) :
    Except AccessErr (Nat × (Nat × List Nat) × (Nat × List Nat)) :=
  iv.atU ((iv.index.length + (U64 - 1)) % U64)

/-- An empty `InstVector` (as after `Clear()`). -/
def InstVector.emptyIV : InstVector := ⟨[], TensorVector.Clear ℚ, TensorVector.Clear ℚ⟩

/-! ## Seeded shuffle (the `utils/random.h` RandomSampler is not among the
sampled sources; it is modelled from the spec) -/

/-- Modelled from the spec: `utils::RandomSampler` (missing
`src/utils/random.h`) is "a seeded random generator"; a standard linear
congruential step stands in for its stream. -/
def lcgNext (x : Nat) : Nat := (1103515245 * x + 12345) % 2147483648

/-- Modelled from the spec: the permutation of positions that
`rnd.Shuffle(inst_)` applies — "generate a permutation of instance
identities using a seeded random generator (so deterministic given the same
seed)" — realized as a product of RNG-driven transpositions. -/
def fyPerm (seed n : Nat) : Equiv.Perm (Fin n) :=
  ((List.finRange n).foldl
    (fun acc k =>
      (Equiv.swap k
          ⟨lcgNext acc.2 % (k.val + 1),
           Nat.lt_of_lt_of_le (Nat.mod_lt _ (Nat.succ_pos k.val)) k.isLt⟩ * acc.1,
       lcgNext acc.2))
    (1, seed)).1

/-- Modelled from the spec: `rnd.Shuffle` reorders a list by the seeded
permutation of positions. -/
def shuffleModel (seed : Nat) (l : List α) : List α :=
  List.ofFn (fun i => l.get (fyPerm seed l.length i))

/-! ## MNIST batch iterator (iter_mnist-inl.hpp) -/

/-- The state of `MNISTIterator` needed for iteration: the cursor `loc_`,
`batch_size_`, `inst_offset_`, the loaded images (one entry per image row
block), labels and instance indices, and the output batch views set by the
last successful `Next()`. -/
structure MNISTIterator (α : Type) where
  loc : Nat
  batch_size : Nat
  inst_offset : Nat
  img : List α
  labels : List ℚ
  inst : List Nat
  out_data : List α
  out_label : List ℚ
  out_inst : List Nat

/-- Embedding of `MNISTIterator::Next()`: if `loc_ + batch_size_ <=
img_.size(0)` the output views are pointed at rows `[loc_, loc_+batch_size_)`
of the shared buffers, the cursor advances by `batch_size_`, and `true` is
returned; otherwise `false` with no state change. -/
def MNISTIterator.Next (s : MNISTIterator α) : Bool × MNISTIterator α :=
  if s.loc + s.batch_size ≤ s.img.length then
    (true,
     { s with
        out_data := (s.img.drop s.loc).take s.batch_size,
        out_label := (s.labels.drop s.loc).take s.batch_size,
        out_inst := (s.inst.drop s.loc).take s.batch_size,
        loc := s.loc + s.batch_size })
  else (false, s)

/-- Embedding of `MNISTIterator::Value()`: the current output batch. -/
def MNISTIterator.Value (s : MNISTIterator α) : List α × List ℚ × List Nat :=
  (s.out_data, s.out_label, s.out_inst)

/-- Embedding of `MNISTIterator::BeforeFirst()`: only resets the cursor. -/
def MNISTIterator.BeforeFirst (s : MNISTIterator α) : MNISTIterator α :=
  { s with loc := 0 }

/-- The iterator state right after `Init()` (data loaded, cursor at 0,
no output batch yet). -/
def MNISTIterator.initIter (b off : Nat) (img : List α) (labels : List ℚ)
    (inst : List Nat) : MNISTIterator α :=
  ⟨0, b, off, img, labels, inst, [], [], []⟩

/-- Repeatedly calling `Next()` (at most `fuel` times), collecting the batch
value produced by each successful call and stopping at the first `false`. -/
def MNISTIterator.runEpoch : Nat → MNISTIterator α →
    List (List α × List ℚ × List Nat) × MNISTIterator α
  | 0, s => ([], s)
  | f + 1, s =>
    if (s.Next).1 then
      ((s.Next).2.Value :: (MNISTIterator.runEpoch f (s.Next).2).1,
       (MNISTIterator.runEpoch f (s.Next).2).2)
    else ([], s)

/-- Embedding of `MNISTIterator::Shuffle()`: permute the identity array with
the seeded RNG, then materialize reordered copies of images and labels by
reading source row `inst_[i] - inst_offset_` for every position `i`, and copy
back. -/
def MNISTIterator.Shuffle [Inhabited α] (seed : Nat) (s : MNISTIterator α) :
    MNISTIterator α :=
  let instS := shuffleModel seed s.inst
  { s with
     inst := instS,
     img := instS.map (fun id => s.img.getD (id - s.inst_offset) default),
     labels := instS.map (fun id => s.labels.getD (id - s.inst_offset) 0) }

/-- Embedding of the identity array built by `MNISTIterator::LoadLabel()`:
`inst_.push_back((unsigned)i + inst_offset_)` for `i = 0 .. labels_count-1`. -/
def loadLabelInst (labels_count inst_offset : Nat) : List Nat :=
  (List.range labels_count).map (fun i => i + inst_offset)

/-! ## Pooling layer backprop (pooling_layer-inl.hpp) -/

/-- The pooling modes of the template parameter `mode`. -/
inductive PoolMode where
  | kMaxPooling
  | kSumPooling
  | kAvgPooling

/-- The external mshadow expression primitives `Backprop` composes (`pad`,
`unpool<Reducer>`, `crop`, and scalar scaling); mshadow is an external
library, so they are parameters of the embedding. -/
structure PoolOps (T : Type) where
  pad : T → Int → Int → T
  unpool : T → T → T → Int → Int → Int → T
  crop : T → (Nat × Nat) → Int → Int → T
  smul : ℚ → T → T

/-- The per-connection scratch state allocated by `InitNode`
(`p_cstate->states` has two tensors). -/
structure ConnectState (T : Type) where
  state0 : T
  state1 : T

/-- The input gradient `PoolingLayer::Backprop` computes in the
(non-deprecated) `is_identity` instantiation:
`crop(unpool<Reducer>(pad(in, py, px), pad(tmp, 0, 0), pad(out, 0, 0),
kh, kw, stride), in_shape, py, px)`, additionally scaled by
`1 / (kh * kw)` for average pooling. -/
def poolInputGrad {T : Type} (ops : PoolOps T) (mode : PoolMode) (p : LayerParam)
    (in_shape : Nat × Nat) (inData outData tmp : T) : T :=
  let base := ops.crop
    (ops.unpool (ops.pad inData p.pad_y p.pad_x) (ops.pad tmp 0 0) (ops.pad outData 0 0)
      p.kernel_height p.kernel_width p.stride)
    in_shape p.pad_y p.pad_x
  match mode with
  | PoolMode.kMaxPooling => base
  | PoolMode.kSumPooling => base
  | PoolMode.kAvgPooling =>
      ops.smul (1 / ((p.kernel_height : ℚ) * (p.kernel_width : ℚ))) base

/-- Embedding of `PoolingLayer::Backprop`: when `prop_grad` is false the body
is skipped entirely (no field is written); otherwise, in the `is_identity`
instantiation, the inputs' data field is overwritten with the computed input
gradient and the connection state is only read; the deprecated
activation-fused instantiation aborts with `utils::Error`. -/
def PoolingLayer.Backprop {T : Type} (ops : PoolOps T) (mode : PoolMode)
    (is_identity : Bool) (p : LayerParam) (in_shape : Nat × Nat) (prop_grad : Bool)
    (inData outData : T) (cs : ConnectState T) : Except String (T × ConnectState T) :=
  if prop_grad then
    if is_identity then
      Except.ok (poolInputGrad ops mode p in_shape inData outData cs.state0, cs)
    else Except.error "deprecated pooling with activation interface!"
  else Except.ok (inData, cs)

/-! ## Theorems -/

/-- `listResize` always produces exactly the requested length. -/
theorem listResize_length (c : List α) (n : Nat) (d : α) :
    (listResize c n d).length = n := by
  unfold listResize
  rw [List.length_append, List.length_take, List.length_replicate]
  omega

/-- The invariant holds for a fresh/cleared store. -/
theorem tvInv_clear (α : Type) : TVInv (TensorVector.Clear α) := by
  refine ⟨rfl, rfl, ?_, rfl, rfl, ?_⟩
  · intro i hi
    exact absurd hi (Nat.not_lt_zero i)
  · intro i hi
    have h0 : i = 0 := Nat.le_zero.mp hi
    subst h0
    exact Nat.le_refl 0

/-- `Push` preserves the offset-table invariant. -/
theorem tvInv_push [Inhabited α] {tv : TensorVector α} (h : TVInv tv) (s : List Nat) :
    TVInv (tv.Push s) := by
  have hosz := h.osz
  have hlen0 : 0 < tv.offset.length := by omega
  have hN : tv.shape.length < tv.offset.length := by omega
  have hL : tv.offset.getLastD 0 = tv.content.length := by rw [h.glast, h.clen]
  have poff : (tv.Push s).offset = tv.offset ++ [tv.offset.getLastD 0 + s.prod] := rfl
  have pcon : (tv.Push s).content =
      listResize tv.content (tv.offset.getLastD 0 + s.prod) default := rfl
  have psh : (tv.Push s).shape = tv.shape ++ [s] := rfl
  have hback : (tv.offset ++ [tv.offset.getLastD 0 + s.prod]).getD (tv.shape.length + 1) 0 =
      tv.offset.getLastD 0 + s.prod := by
    rw [List.getD_append_right _ _ _ _ (by omega), hosz, Nat.sub_self]
    rfl
  refine ⟨?_, ?_, ?_, ?_, ?_, ?_⟩
  · rw [poff, psh, List.length_append, List.length_append]
    simp only [List.length_singleton]
    omega
  · rw [poff, List.getD_append _ _ _ _ hlen0]
    exact h.head
  · intro i hi
    have hi1 : i < tv.shape.length + 1 := by
      rw [psh, List.length_append] at hi
      simpa using hi
    rw [poff, psh]
    by_cases hiN : i < tv.shape.length
    · rw [List.getD_append _ _ _ _ (show i + 1 < tv.offset.length by omega),
        List.getD_append _ _ _ _ (show i < tv.offset.length by omega),
        List.getD_append _ _ _ _ hiN]
      exact h.step i hiN
    · have hieq : i = tv.shape.length := by omega
      subst hieq
      rw [hback, List.getD_append _ _ _ _ hN,
        List.getD_append_right _ _ _ _ (Nat.le_refl _), Nat.sub_self]
      rw [h.glast]
      rfl
  · rw [pcon, psh, poff, listResize_length, List.length_append]
    simp only [List.length_singleton]
    rw [hback]
  · rw [poff, psh, List.getLastD_concat, List.length_append]
    simp only [List.length_singleton]
    rw [hback]
  · intro i hi
    have hi1 : i ≤ tv.shape.length + 1 := by
      rw [psh, List.length_append] at hi
      simpa using hi
    rw [poff, pcon, listResize_length]
    by_cases hiN : i ≤ tv.shape.length
    · rw [List.getD_append _ _ _ _ (by omega)]
      have hb := h.bound i hiN
      omega
    · have hieq : i = tv.shape.length + 1 := by omega
      subst hieq
      rw [hback]

/-- The invariant holds after any fold of pushes. -/
theorem tvInv_foldl [Inhabited α] (l : List (List Nat)) :
    ∀ tv : TensorVector α, TVInv tv → TVInv (l.foldl TensorVector.Push tv) := by
  induction l with
  | nil => intro tv h; exact h
  | cons s rest ih =>
    intro tv h
    exact ih _ (tvInv_push h s)

/-- The shape table after a fold of pushes is the initial table plus the
pushed shapes, in order. -/
theorem shape_foldl [Inhabited α] (l : List (List Nat)) :
    ∀ tv : TensorVector α, (l.foldl TensorVector.Push tv).shape = tv.shape ++ l := by
  induction l with
  | nil => intro tv; simp
  | cons s rest ih =>
    intro tv
    rw [List.foldl_cons, ih]
    show tv.shape ++ [s] ++ rest = _
    rw [List.append_assoc]
    rfl

/-- Under the invariant, writing a full tensor through the view for `i` and
reading the view back reproduces exactly the written elements. -/
theorem view_writeView {α : Type} (tv : TensorVector α) (hInv : TVInv tv)
    (i : Nat) (hi : i < tv.shape.length) (vals : List α)
    (hv : vals.length = (tv.shape.getD i []).prod) :
    (tv.writeView i vals).view i = vals := by
  have hstep := hInv.step i hi
  have hb1 : tv.offset.getD (i + 1) 0 ≤ tv.content.length := hInv.bound (i + 1) (by omega)
  have h1 : tv.offset.getD i 0 + vals.length ≤ tv.content.length := by
    rw [hv]; omega
  have ho : tv.offset.getD i 0 ≤ tv.content.length := by omega
  show ((tv.content.take (tv.offset.getD i 0) ++ vals ++
      tv.content.drop (tv.offset.getD i 0 + vals.length)).drop
        (tv.offset.getD i 0)).take (tv.shape.getD i []).prod = vals
  rw [List.append_assoc]
  rw [List.drop_left' (by rw [List.length_take]; omega)]
  rw [← hv]
  exact List.take_left' rfl

/-- Claim C4: after every sequence of pushes starting from a fresh or cleared
store the offset table has `N+1` entries, `offset[0] = 0`,
`offset[i+1] - offset[i] = shape_i.size()` for every `i < N`, and the view
returned for index `i` reproduces exactly the elements written through it. -/
theorem claimC4 (α : Type) [Inhabited α] (l : List (List Nat)) (i : Nat)
    (hi : i < l.length) (vals : List α) (hv : vals.length = (l.getD i []).prod) :
    (TensorVector.pushAll α l).offset.length = l.length + 1 ∧
    (TensorVector.pushAll α l).offset.getD 0 0 = 0 ∧
    (∀ j, j < l.length →
      (TensorVector.pushAll α l).offset.getD (j + 1) 0 -
        (TensorVector.pushAll α l).offset.getD j 0 = (l.getD j []).prod) ∧
    (((TensorVector.pushAll α l).writeView i vals).view i = vals) := by
  have hshape : (TensorVector.pushAll α l).shape = l := by
    unfold TensorVector.pushAll
    rw [shape_foldl]
    rfl
  have hInv : TVInv (TensorVector.pushAll α l) :=
    tvInv_foldl l _ (tvInv_clear α)
  refine ⟨?_, hInv.head, ?_, ?_⟩
  · rw [hInv.osz, hshape]
  · intro j hj
    have := hInv.step j (by rw [hshape]; exact hj)
    rw [hshape] at this
    omega
  · exact view_writeView _ hInv i (by rw [hshape]; exact hi) vals
      (by rw [hshape]; exact hv)

/-- Witness for C4: pushing shapes `[2]` then `[3]` and writing `[7, 8, 9]`
through the view for index 1. -/
theorem claimC4_witness :
    ((1 : Nat) < ([[2], [3]] : List (List Nat)).length ∧
     ([(7 : Nat), 8, 9] : List Nat).length = (([[2], [3]] : List (List Nat)).getD 1 []).prod) ∧
    ((TensorVector.pushAll Nat [[2], [3]]).offset.length =
        ([[2], [3]] : List (List Nat)).length + 1 ∧
     (TensorVector.pushAll Nat [[2], [3]]).offset.getD 0 0 = 0 ∧
     (∀ j, j < ([[2], [3]] : List (List Nat)).length →
       (TensorVector.pushAll Nat [[2], [3]]).offset.getD (j + 1) 0 -
         (TensorVector.pushAll Nat [[2], [3]]).offset.getD j 0 =
           (([[2], [3]] : List (List Nat)).getD j []).prod) ∧
     (((TensorVector.pushAll Nat [[2], [3]]).writeView 1 [7, 8, 9]).view 1 = [7, 8, 9])) :=
  ⟨⟨by decide, by decide⟩,
   claimC4 Nat [[2], [3]] 1 (by decide) [7, 8, 9] (by decide)⟩

/-- Claim C5 evidence (code bug): `Back()` on an empty store does **not**
fail with a clean OutOfRange `CHECK`: `Size() - 1` wraps to `2^64 - 1`, the
guard `CHECK(i + 1 < offset_.size())` wraps to `0 < 1` and passes, and the
subsequent `shape_[i]` / `index_[i]` reads are out of bounds (undefined
behavior). For an ordinary invalid index (here 5 on a 2-element store) the
guard does fail cleanly, as the claim describes. -/
theorem claimC5_bug :
    TensorVector.BackU (TensorVector.Clear ℚ) = Except.error AccessErr.undefinedBehavior ∧
    InstVector.BackU InstVector.emptyIV = Except.error AccessErr.undefinedBehavior ∧
    TensorVector.getU (TensorVector.pushAll ℚ [[2], [3]]) 5 =
      Except.error AccessErr.checkFail := by
  refine ⟨rfl, rfl, rfl⟩

/-- The unsigned cast is the identity on small naturals. -/
theorem icast_natCast (n : Nat) (h : n < U32) : icast (n : Int) = n := by
  unfold icast U32 at *
  omega

/-- Unsigned addition without overflow is plain addition. -/
theorem uadd_eq (a b : Nat) (h : a + b < U32) : uadd a b = a + b := by
  unfold uadd U32 at *
  omega

/-- Unsigned subtraction without underflow is plain (truncated) subtraction. -/
theorem usub_eq (a b : Nat) (hb : b ≤ a) (ha : a < U32) : usub a b = a - b := by
  unfold usub U32 at *
  omega

/-- On inputs accepted by `InitNode` (positive kernel not exceeding the input,
positive stride) with no 32-bit overflow, the unsigned computation agrees with
the specification's formula. -/
theorem poolOut_eq (H py k s : Nat) (hk : 0 < k) (hkH : k ≤ H) (hs : 0 < s)
    (hb : H + 2 * py + s < U32) :
    poolOut H (2 * py) k s = poolOutFormula H py k s := by
  unfold poolOut poolOutFormula udiv
  rw [uadd_eq H (2 * py) (by omega)]
  rw [usub_eq (H + 2 * py) k (by omega) (by omega)]
  rw [uadd_eq (H + 2 * py - k) s (by omega)]
  rw [usub_eq (H + 2 * py - k + s) 1 (by omega) (by omega)]
  rw [usub_eq (H + 2 * py) 1 (by omega) (by omega)]
  have hq : min (H + 2 * py - k + s - 1) (H + 2 * py - 1) / s ≤
      H + 2 * py - k + s - 1 :=
    le_trans (Nat.div_le_self _ _) (min_le_left _ _)
  rw [uadd_eq (min (H + 2 * py - k + s - 1) (H + 2 * py - 1) / s) 1 (by omega)]

/-- Claim C2: pooling shape inference. For every input accepted by
`init_connection` (with non-negative padding, positive stride, and no 32-bit
overflow), the inferred output spatial dims equal
`min(H + 2*py - kh + s - 1, H + 2*py - 1) / s + 1` (and likewise for width);
in particular `H=28, kh=2, s=2, py=0` gives `outH=14` and
`H=28, kh=3, s=2, py=1` gives `outH=15`. -/
theorem claimC2 (kh kw s py px : Nat) (ish osp : Shape4)
    (hkh : 0 < kh) (hkw : 0 < kw) (hs : 0 < s)
    (hky : kh ≤ ish.d2) (hkx : kw ≤ ish.d3)
    (hbY : ish.d2 + 2 * py + s < U32) (hbX : ish.d3 + 2 * px + s < U32) :
    PoolingLayer.InitNode ⟨(kh : Int), (kw : Int), (s : Int), (py : Int), (px : Int)⟩
        [ish] [osp] =
      Except.ok
        (⟨ish.d0, ish.d1, poolOutFormula ish.d2 py kh s, poolOutFormula ish.d3 px kw s⟩,
         [⟨ish.d0, ish.d1, poolOutFormula ish.d2 py kh s, poolOutFormula ish.d3 px kw s⟩,
          ish]) ∧
    PoolingLayer.InitNode ⟨2, 2, 2, 0, 0⟩ [⟨1, 1, 28, 28⟩] [⟨0, 0, 0, 0⟩] =
      Except.ok (⟨1, 1, 14, 14⟩, [⟨1, 1, 14, 14⟩, ⟨1, 1, 28, 28⟩]) ∧
    PoolingLayer.InitNode ⟨3, 3, 2, 1, 1⟩ [⟨1, 1, 28, 28⟩] [⟨0, 0, 0, 0⟩] =
      Except.ok (⟨1, 1, 15, 15⟩, [⟨1, 1, 15, 15⟩, ⟨1, 1, 28, 28⟩]) := by
  refine ⟨?_, by rfl, by rfl⟩
  have hy32 : ish.d2 < U32 := by omega
  have hx32 : ish.d3 < U32 := by omega
  have ekh : icast (kh : Int) = kh := icast_natCast kh (by omega)
  have ekw : icast (kw : Int) = kw := icast_natCast kw (by omega)
  have es : icast (s : Int) = s := icast_natCast s (by omega)
  have epy : icast (2 * (py : Int)) = 2 * py := by
    have hc : (2 * (py : Int)) = ((2 * py : Nat) : Int) := by push_cast; ring
    rw [hc]
    exact icast_natCast (2 * py) (by omega)
  have epx : icast (2 * (px : Int)) = 2 * px := by
    have hc : (2 * (px : Int)) = ((2 * px : Nat) : Int) := by push_cast; ring
    rw [hc]
    exact icast_natCast (2 * px) (by omega)
  unfold PoolingLayer.InitNode
  rw [if_pos ⟨rfl, rfl⟩]
  simp only [List.getD_cons_zero, ekh, ekw, es, epy, epx]
  rw [if_pos ⟨by exact_mod_cast hkh, by exact_mod_cast hkw⟩]
  rw [if_pos ⟨hkx, hky⟩]
  rw [poolOut_eq ish.d2 py kh s hkh hky hs hbY]
  rw [poolOut_eq ish.d3 px kw s hkw hkx hs hbX]

/-- Witness for C2 at the spec's second example: `H = W = 28`, kernel 3,
stride 2, padding 1. -/
theorem claimC2_witness :
    (0 < 3 ∧ 0 < 2 ∧ 3 ≤ 28 ∧ 28 + 2 * 1 + 2 < U32) ∧
    (PoolingLayer.InitNode ⟨(3 : Int), (3 : Int), (2 : Int), (1 : Int), (1 : Int)⟩
        [⟨1, 1, 28, 28⟩] [⟨0, 0, 0, 0⟩] =
      Except.ok
        (⟨1, 1, poolOutFormula 28 1 3 2, poolOutFormula 28 1 3 2⟩,
         [⟨1, 1, poolOutFormula 28 1 3 2, poolOutFormula 28 1 3 2⟩, ⟨1, 1, 28, 28⟩]) ∧
     PoolingLayer.InitNode ⟨2, 2, 2, 0, 0⟩ [⟨1, 1, 28, 28⟩] [⟨0, 0, 0, 0⟩] =
      Except.ok (⟨1, 1, 14, 14⟩, [⟨1, 1, 14, 14⟩, ⟨1, 1, 28, 28⟩]) ∧
     PoolingLayer.InitNode ⟨3, 3, 2, 1, 1⟩ [⟨1, 1, 28, 28⟩] [⟨0, 0, 0, 0⟩] =
      Except.ok (⟨1, 1, 15, 15⟩, [⟨1, 1, 15, 15⟩, ⟨1, 1, 28, 28⟩])) :=
  ⟨by decide,
   claimC2 3 3 2 1 1 ⟨1, 1, 28, 28⟩ ⟨0, 0, 0, 0⟩ (by decide) (by decide) (by decide)
     (by decide) (by decide) (by decide) (by decide)⟩

/-- Counterexample for claim C3: with kernel 3, padding `py = 1` and input
height `H = 2`, the kernel does not exceed the padded input
(`3 ≤ 2 + 2*1 = 4`), so the claim predicts success, yet `InitNode` fails
because the code compares the kernel against the *unpadded* input
(`ksize_y <= ishape[2]`, i.e. `3 ≤ 2` fails). -/
theorem claimC3_counterexample :
    exceptOk (PoolingLayer.InitNode ⟨3, 1, 1, 1, 0⟩ [⟨1, 1, 2, 1⟩] [⟨0, 0, 0, 0⟩]) = false ∧
    ¬ ((3 : Int) ≤ 0 ∨ (1 : Int) ≤ 0 ∨
       ((2 : Int) + 2 * 1) < 3 ∨ ((1 : Int) + 2 * 0) < 1) := by
  refine ⟨by rfl, by decide⟩

/-- Claim C3 (amended): `InitNode` on a 1-1 connection fails with a
`ConfigError` exactly when `kernel_height ≤ 0` or `kernel_width ≤ 0`, or
the kernel exceeds the **unpadded** input size (`kh > H` or `kw > W`);
padding does not enter the check. -/
theorem claimC3 (p : LayerParam) (ish osp : Shape4)
    (hkh : p.kernel_height < 2 ^ 31) (hkw : p.kernel_width < 2 ^ 31) :
    exceptOk (PoolingLayer.InitNode p [ish] [osp]) = false ↔
      (p.kernel_height ≤ 0 ∨ p.kernel_width ≤ 0 ∨
       (ish.d2 : Int) < p.kernel_height ∨ (ish.d3 : Int) < p.kernel_width) := by
  unfold PoolingLayer.InitNode
  rw [if_pos ⟨rfl, rfl⟩]
  by_cases hpos : 0 < p.kernel_height ∧ 0 < p.kernel_width
  · have ekh : icast p.kernel_height = p.kernel_height.toNat := by
      unfold icast
      rw [Int.emod_eq_of_lt (le_of_lt hpos.1) (by unfold U32; omega)]
    have ekw : icast p.kernel_width = p.kernel_width.toNat := by
      unfold icast
      rw [Int.emod_eq_of_lt (le_of_lt hpos.2) (by unfold U32; omega)]
    simp only [List.getD_cons_zero, ekh, ekw]
    rw [if_pos hpos]
    by_cases hsz : p.kernel_width.toNat ≤ ish.d3 ∧ p.kernel_height.toNat ≤ ish.d2
    · rw [if_pos hsz]
      simp only [exceptOk]
      constructor
      · intro h
        exact absurd h (by simp)
      · intro h
        exfalso
        rcases h with h | h | h | h
        · omega
        · omega
        · have := hsz.2
          omega
        · have := hsz.1
          omega
    · rw [if_neg hsz]
      simp only [exceptOk, true_iff]
      rcases not_and_or.mp hsz with h | h
      · right; right; right
        omega
      · right; right; left
        omega
  · rw [if_neg hpos]
    simp only [exceptOk, true_iff]
    rcases not_and_or.mp hpos with h | h
    · left; omega
    · right; left; omega

/-- Witness for C3 (amended) at the counterexample's input: kernel 3 on an
input of height 2 with padding 1 fails, matching `kh > H`. -/
theorem claimC3_witness :
    ((3 : Int) < 2 ^ 31 ∧ (1 : Int) < 2 ^ 31) ∧
    (exceptOk (PoolingLayer.InitNode ⟨3, 1, 1, 1, 0⟩ [⟨1, 1, 2, 1⟩] [⟨0, 0, 0, 0⟩]) = false ↔
      ((3 : Int) ≤ 0 ∨ (1 : Int) ≤ 0 ∨
       ((2 : Nat) : Int) < 3 ∨ ((1 : Nat) : Int) < 1)) :=
  ⟨by decide,
   claimC3 ⟨3, 1, 1, 1, 0⟩ ⟨1, 1, 2, 1⟩ ⟨0, 0, 0, 0⟩ (by decide) (by decide)⟩

/-- Claim C1: parameter key encode/decode round-trip. For every
`layer_index ≥ 0`, decoding the key encoded from `(layer_index, "wmat")`
yields `"wmat"` and decoding the key encoded from `(layer_index, "bias")`
yields `"bias"`; decoding any key whose remainder mod 4 is 2 or 3 fails,
and encoding any tag other than `"wmat"` or `"bias"` fails. -/
theorem claimC1 (layer_index key : Int) (tag : String)
    (hl : 0 ≤ layer_index)
    (hmod : Int.tmod key 4 = 2 ∨ Int.tmod key 4 = 3)
    (htag : tag ≠ "wmat" ∧ tag ≠ "bias") :
    (EncodeDataKey layer_index "wmat").bind DecodeTag = some "wmat" ∧
    (EncodeDataKey layer_index "bias").bind DecodeTag = some "bias" ∧
    DecodeTag key = none ∧
    EncodeDataKey layer_index tag = none := by
  obtain ⟨n, rfl⟩ := Int.eq_ofNat_of_zero_le hl
  refine ⟨?_, ?_, ?_, ?_⟩
  · have h0 : Int.tmod ((n : Int) * kDataKeyStep + 0) kDataKeyStep = 0 := by
      show Int.tmod ((n : Int) * 4 + 0) 4 = 0
      have hc : ((n : Int) * 4 + 0) = ((n * 4 : Nat) : Int) := by push_cast; ring
      rw [hc]
      show ((n * 4 % 4 : Nat) : Int) = 0
      simp [Nat.mul_mod_left]
    have e1 : EncodeDataKey (n : Int) "wmat" = some ((n : Int) * kDataKeyStep + 0) := by
      unfold EncodeDataKey
      rw [if_neg (by decide), if_pos rfl]
    rw [e1]
    show DecodeTag ((n : Int) * kDataKeyStep + 0) = some "wmat"
    unfold DecodeTag
    rw [if_pos h0]
  · have h1 : Int.tmod ((n : Int) * kDataKeyStep + 1) kDataKeyStep = 1 := by
      show Int.tmod ((n : Int) * 4 + 1) 4 = 1
      have hc : ((n : Int) * 4 + 1) = ((n * 4 + 1 : Nat) : Int) := by push_cast; ring
      rw [hc]
      show (((n * 4 + 1) % 4 : Nat) : Int) = 1
      rw [Nat.mul_comm n 4, Nat.mul_add_mod]
      norm_num
    have e1 : EncodeDataKey (n : Int) "bias" = some ((n : Int) * kDataKeyStep + 1) := by
      unfold EncodeDataKey
      rw [if_pos rfl]
    rw [e1]
    show DecodeTag ((n : Int) * kDataKeyStep + 1) = some "bias"
    unfold DecodeTag
    rw [if_neg (by rw [h1]; decide), if_pos h1]
  · rcases hmod with h | h <;> simp [DecodeTag, kDataKeyStep, h]
  · simp [EncodeDataKey, htag.1, htag.2]

/-- Witness for C1 at `layer_index = 3`, `key = 7` (whose remainder mod 4
is 3) and `tag = "gamma"`. -/
theorem claimC1_witness :
    (0 : Int) ≤ 3 ∧
    ((EncodeDataKey 3 "wmat").bind DecodeTag = some "wmat" ∧
     (EncodeDataKey 3 "bias").bind DecodeTag = some "bias" ∧
     DecodeTag 7 = none ∧
     EncodeDataKey 3 "gamma" = none) :=
  ⟨by decide,
   claimC1 3 7 "gamma" (by decide) (Or.inr (by decide)) (by decide)⟩

/-- Claim C8: calling either of the two synchronous update overloads on an
asynchronous updater always fails fast with a usage error, for every epoch
value and every gradient argument. -/
theorem claimC8 (epoch : Int) (grad : Tensor2) :
    IAsyncUpdater.UpdateEpoch epoch =
      Except.error "IAsyncUpdater.Update call AfterBackprop instead" ∧
    IAsyncUpdater.UpdateWithGrad epoch grad =
      Except.error "IAsyncUpdater.Update call AfterBackprop instead" :=
  ⟨rfl, rfl⟩

/-- Claim C9: pooling backprop writes the input gradient only when
`prop_grad` is true: with `prop_grad = false` the inputs' data field and all
connection state are unchanged; with `prop_grad = true` (identity
instantiation) the inputs' data field is overwritten with the computed input
gradient, the connection state still unchanged. -/
theorem claimC9 {T : Type} (ops : PoolOps T) (mode : PoolMode) (is_identity : Bool)
    (p : LayerParam) (in_shape : Nat × Nat) (inData outData : T) (cs : ConnectState T) :
    PoolingLayer.Backprop ops mode is_identity p in_shape false inData outData cs =
      Except.ok (inData, cs) ∧
    (is_identity = true →
      PoolingLayer.Backprop ops mode is_identity p in_shape true inData outData cs =
        Except.ok (poolInputGrad ops mode p in_shape inData outData cs.state0, cs)) := by
  constructor
  · rfl
  · intro h
    subst h
    rfl

/-- Witness for C9 with concrete (trivial) mshadow primitives over `ℚ`. -/
theorem claimC9_witness :
    (PoolingLayer.Backprop
        (⟨fun t _ _ => t, fun a _ _ _ _ _ => a, fun t _ _ _ => t, fun _ t => t⟩ : PoolOps ℚ)
        PoolMode.kMaxPooling true ⟨2, 2, 2, 0, 0⟩ (4, 4) false 5 7 ⟨1, 2⟩ =
      Except.ok (5, ⟨1, 2⟩)) ∧
    (true = true →
      PoolingLayer.Backprop
          (⟨fun t _ _ => t, fun a _ _ _ _ _ => a, fun t _ _ _ => t, fun _ t => t⟩ : PoolOps ℚ)
          PoolMode.kMaxPooling true ⟨2, 2, 2, 0, 0⟩ (4, 4) true 5 7 ⟨1, 2⟩ =
        Except.ok
          (poolInputGrad
            (⟨fun t _ _ => t, fun a _ _ _ _ _ => a, fun t _ _ _ => t, fun _ t => t⟩ : PoolOps ℚ)
            PoolMode.kMaxPooling ⟨2, 2, 2, 0, 0⟩ (4, 4) 5 7
            (ConnectState.state0 ⟨1, 2⟩), ⟨1, 2⟩)) :=
  claimC9
    (⟨fun t _ _ => t, fun a _ _ _ _ _ => a, fun t _ _ _ => t, fun _ t => t⟩ : PoolOps ℚ)
    PoolMode.kMaxPooling true ⟨2, 2, 2, 0, 0⟩ (4, 4) 5 7 ⟨1, 2⟩

/-- `Next()` returns `true` exactly when a full batch remains. -/
theorem next_fst_true_iff (s : MNISTIterator α) :
    (s.Next).1 = true ↔ s.loc + s.batch_size ≤ s.img.length := by
  unfold MNISTIterator.Next
  split
  all_goals rename_i h
  · simp [h]
  · simp [h]

/-- The state produced by a successful `Next()`. -/
theorem next_snd_true (s : MNISTIterator α) (h : s.loc + s.batch_size ≤ s.img.length) :
    (s.Next).2 = { s with
      out_data := (s.img.drop s.loc).take s.batch_size,
      out_label := (s.labels.drop s.loc).take s.batch_size,
      out_inst := (s.inst.drop s.loc).take s.batch_size,
      loc := s.loc + s.batch_size } := by
  unfold MNISTIterator.Next
  rw [if_pos h]

/-- A failed `Next()` leaves the state unchanged. -/
theorem next_snd_false (s : MNISTIterator α)
    (h : ¬ (s.loc + s.batch_size ≤ s.img.length)) : (s.Next).2 = s := by
  unfold MNISTIterator.Next
  rw [if_neg h]

/-- `Next()` never touches the loaded data or the batch size. -/
theorem next_preserves (s : MNISTIterator α) :
    (s.Next).2.img = s.img ∧ (s.Next).2.labels = s.labels ∧
    (s.Next).2.inst = s.inst ∧ (s.Next).2.batch_size = s.batch_size := by
  unfold MNISTIterator.Next
  split
  · exact ⟨rfl, rfl, rfl, rfl⟩
  · exact ⟨rfl, rfl, rfl, rfl⟩

/-- The cursor after a successful `Next()`. -/
theorem next_loc_true (s : MNISTIterator α)
    (h : s.loc + s.batch_size ≤ s.img.length) :
    (s.Next).2.loc = s.loc + s.batch_size := by
  rw [next_snd_true s h]

/-- The batch value after a successful `Next()`: the three views at the old
cursor. -/
theorem value_next (s : MNISTIterator α) (h : s.loc + s.batch_size ≤ s.img.length) :
    ((s.Next).2).Value =
      ((s.img.drop s.loc).take s.batch_size, (s.labels.drop s.loc).take s.batch_size,
       (s.inst.drop s.loc).take s.batch_size) := by
  rw [next_snd_true s h]
  rfl

/-- Running an epoch never touches the loaded data or the batch size. -/
theorem runEpoch_preserves (f : Nat) : ∀ s : MNISTIterator α,
    (MNISTIterator.runEpoch f s).2.img = s.img ∧
    (MNISTIterator.runEpoch f s).2.labels = s.labels ∧
    (MNISTIterator.runEpoch f s).2.inst = s.inst ∧
    (MNISTIterator.runEpoch f s).2.batch_size = s.batch_size := by
  induction f with
  | zero =>
    intro s
    exact ⟨rfl, rfl, rfl, rfl⟩
  | succ f ih =>
    intro s
    unfold MNISTIterator.runEpoch
    split
    · have h1 := ih (s.Next).2
      have h2 := next_preserves s
      exact ⟨h1.1.trans h2.1, h1.2.1.trans h2.2.1, h1.2.2.1.trans h2.2.2.1,
        h1.2.2.2.trans h2.2.2.2⟩
    · exact ⟨rfl, rfl, rfl, rfl⟩

/-- With a positive batch size and enough fuel, an epoch from cursor `loc`
yields exactly `(N - loc) / batch_size` full batches. -/
theorem runEpoch_length (f : Nat) : ∀ s : MNISTIterator α, 0 < s.batch_size →
    s.img.length - s.loc ≤ f →
    (MNISTIterator.runEpoch f s).1.length = (s.img.length - s.loc) / s.batch_size := by
  induction f with
  | zero =>
    intro s hb hf
    have h0 : s.img.length - s.loc = 0 := Nat.le_zero.mp hf
    simp [MNISTIterator.runEpoch, h0]
  | succ f ih =>
    intro s hb hf
    unfold MNISTIterator.runEpoch
    by_cases hc : s.loc + s.batch_size ≤ s.img.length
    · rw [if_pos ((next_fst_true_iff s).mpr hc)]
      rw [List.length_cons]
      have hp := next_preserves s
      have hb2 : 0 < (s.Next).2.batch_size := by rw [hp.2.2.2]; exact hb
      have hf2 : (s.Next).2.img.length - (s.Next).2.loc ≤ f := by
        rw [hp.1, next_loc_true s hc]
        omega
      rw [ih (s.Next).2 hb2 hf2]
      rw [hp.1, hp.2.2.2, next_loc_true s hc]
      rw [Nat.div_eq_sub_div hb (show s.batch_size ≤ s.img.length - s.loc by omega)]
      have he : s.img.length - (s.loc + s.batch_size) =
          s.img.length - s.loc - s.batch_size := by omega
      rw [he]
    · rw [if_neg (fun h => hc ((next_fst_true_iff s).mp h))]
      show ([] : List _).length = _
      rw [List.length_nil]
      exact (Nat.div_eq_of_lt (by omega)).symm

/-- After an epoch with enough fuel, the next `Next()` returns `false`. -/
theorem runEpoch_exhausts (f : Nat) : ∀ s : MNISTIterator α, 0 < s.batch_size →
    s.img.length - s.loc ≤ f →
    (((MNISTIterator.runEpoch f s).2).Next).1 = false := by
  induction f with
  | zero =>
    intro s hb hf
    show ((s.Next)).1 = false
    rw [← Bool.not_eq_true, next_fst_true_iff]
    omega
  | succ f ih =>
    intro s hb hf
    unfold MNISTIterator.runEpoch
    by_cases hc : s.loc + s.batch_size ≤ s.img.length
    · rw [if_pos ((next_fst_true_iff s).mpr hc)]
      have hp := next_preserves s
      have hb2 : 0 < (s.Next).2.batch_size := by rw [hp.2.2.2]; exact hb
      have hf2 : (s.Next).2.img.length - (s.Next).2.loc ≤ f := by
        rw [hp.1, next_loc_true s hc]
        omega
      exact ih (s.Next).2 hb2 hf2
    · rw [if_neg (fun h => hc ((next_fst_true_iff s).mp h))]
      show ((s.Next)).1 = false
      rw [← Bool.not_eq_true, next_fst_true_iff]
      omega

/-- `BeforeFirst` only resets the cursor. -/
theorem beforeFirst_proj (s : MNISTIterator α) :
    (s.BeforeFirst).img = s.img ∧ (s.BeforeFirst).labels = s.labels ∧
    (s.BeforeFirst).inst = s.inst ∧ (s.BeforeFirst).batch_size = s.batch_size ∧
    (s.BeforeFirst).loc = 0 :=
  ⟨rfl, rfl, rfl, rfl, rfl⟩

/-- The freshly initialized iterator's fields. -/
theorem initIter_proj (b off : Nat) (img : List α) (labels : List ℚ) (inst : List Nat) :
    (MNISTIterator.initIter b off img labels inst).img = img ∧
    (MNISTIterator.initIter b off img labels inst).labels = labels ∧
    (MNISTIterator.initIter b off img labels inst).inst = inst ∧
    (MNISTIterator.initIter b off img labels inst).batch_size = b ∧
    (MNISTIterator.initIter b off img labels inst).loc = 0 :=
  ⟨rfl, rfl, rfl, rfl, rfl⟩

/-- Claim C6: batch source iteration contract. `next()` returns a batch
exactly when at least `batch_size` instances remain past the cursor; from a
fresh cursor it yields exactly `⌊N/b⌋` full batches, then returns `false`
without an exception; after `before_first()` the first batch produced by
`next()` equals the first batch of the previous epoch, and no reload or
reshuffle happens (the loaded data is untouched). -/
theorem claimC6 (α : Type) (b off : Nat) (img : List α) (labels : List ℚ)
    (inst : List Nat) (hb : 0 < b) (hbN : b ≤ img.length) :
    (∀ t : MNISTIterator α, 0 < t.batch_size →
      ((t.Next).1 = true ↔ t.batch_size ≤ t.img.length - t.loc)) ∧
    ((MNISTIterator.runEpoch img.length
        (MNISTIterator.initIter b off img labels inst)).1.length = img.length / b) ∧
    (((MNISTIterator.runEpoch img.length
        (MNISTIterator.initIter b off img labels inst)).2.Next).1 = false) ∧
    (((MNISTIterator.runEpoch img.length
        (MNISTIterator.initIter b off img labels inst)).2.BeforeFirst.Next).2.Value =
      (((MNISTIterator.initIter b off img labels inst).Next).2.Value)) ∧
    ((MNISTIterator.runEpoch img.length
        (MNISTIterator.initIter b off img labels inst)).2.BeforeFirst.img = img ∧
     (MNISTIterator.runEpoch img.length
        (MNISTIterator.initIter b off img labels inst)).2.BeforeFirst.labels = labels ∧
     (MNISTIterator.runEpoch img.length
        (MNISTIterator.initIter b off img labels inst)).2.BeforeFirst.inst = inst) := by
  have hp := runEpoch_preserves img.length (MNISTIterator.initIter b off img labels inst)
  obtain ⟨hpi, hpl, hpn, hpb⟩ := hp
  rw [(initIter_proj b off img labels inst).1] at hpi
  rw [(initIter_proj b off img labels inst).2.1] at hpl
  rw [(initIter_proj b off img labels inst).2.2.1] at hpn
  rw [(initIter_proj b off img labels inst).2.2.2.1] at hpb
  refine ⟨?_, ?_, ?_, ?_, ?_, ?_, ?_⟩
  · intro t ht
    rw [next_fst_true_iff]
    omega
  · have h := runEpoch_length img.length (MNISTIterator.initIter b off img labels inst)
      (by rw [(initIter_proj b off img labels inst).2.2.2.1]; exact hb)
      (by rw [(initIter_proj b off img labels inst).1,
              (initIter_proj b off img labels inst).2.2.2.2]; omega)
    rw [h, (initIter_proj b off img labels inst).1,
      (initIter_proj b off img labels inst).2.2.2.1,
      (initIter_proj b off img labels inst).2.2.2.2, Nat.sub_zero]
  · exact runEpoch_exhausts img.length (MNISTIterator.initIter b off img labels inst)
      (by rw [(initIter_proj b off img labels inst).2.2.2.1]; exact hb)
      (by rw [(initIter_proj b off img labels inst).1,
              (initIter_proj b off img labels inst).2.2.2.2]; omega)
  · have hc1 : ((MNISTIterator.runEpoch img.length
        (MNISTIterator.initIter b off img labels inst)).2.BeforeFirst).loc +
        ((MNISTIterator.runEpoch img.length
        (MNISTIterator.initIter b off img labels inst)).2.BeforeFirst).batch_size ≤
        ((MNISTIterator.runEpoch img.length
        (MNISTIterator.initIter b off img labels inst)).2.BeforeFirst).img.length := by
      rw [(beforeFirst_proj _).1, (beforeFirst_proj _).2.2.2.1,
        (beforeFirst_proj _).2.2.2.2, hpi, hpb]
      omega
    have hc2 : (MNISTIterator.initIter b off img labels inst).loc +
        (MNISTIterator.initIter b off img labels inst).batch_size ≤
        (MNISTIterator.initIter b off img labels inst).img.length := by
      rw [(initIter_proj b off img labels inst).1,
        (initIter_proj b off img labels inst).2.2.2.1,
        (initIter_proj b off img labels inst).2.2.2.2]
      omega
    rw [value_next _ hc1, value_next _ hc2]
    rw [(beforeFirst_proj _).1, (beforeFirst_proj _).2.1, (beforeFirst_proj _).2.2.1,
      (beforeFirst_proj _).2.2.2.1, (beforeFirst_proj _).2.2.2.2,
      hpi, hpl, hpn, hpb,
      (initIter_proj b off img labels inst).1,
      (initIter_proj b off img labels inst).2.1,
      (initIter_proj b off img labels inst).2.2.1,
      (initIter_proj b off img labels inst).2.2.2.1,
      (initIter_proj b off img labels inst).2.2.2.2]
  · rw [(beforeFirst_proj _).1]
    exact hpi
  · rw [(beforeFirst_proj _).2.1]
    exact hpl
  · rw [(beforeFirst_proj _).2.2.1]
    exact hpn

/-- Witness for C6: 25 instances, `batch_size = 10` — two full batches. -/
theorem claimC6_witness :
    ((0 : Nat) < 10 ∧ 10 ≤ (List.range 25).length) ∧
    ((∀ t : MNISTIterator Nat, 0 < t.batch_size →
      ((t.Next).1 = true ↔ t.batch_size ≤ t.img.length - t.loc)) ∧
    ((MNISTIterator.runEpoch (List.range 25).length
        (MNISTIterator.initIter 10 0 (List.range 25) (List.replicate 25 0)
          (List.range 25))).1.length = (List.range 25).length / 10) ∧
    (((MNISTIterator.runEpoch (List.range 25).length
        (MNISTIterator.initIter 10 0 (List.range 25) (List.replicate 25 0)
          (List.range 25))).2.Next).1 = false) ∧
    (((MNISTIterator.runEpoch (List.range 25).length
        (MNISTIterator.initIter 10 0 (List.range 25) (List.replicate 25 0)
          (List.range 25))).2.BeforeFirst.Next).2.Value =
      (((MNISTIterator.initIter 10 0 (List.range 25) (List.replicate 25 0)
          (List.range 25)).Next).2.Value)) ∧
    ((MNISTIterator.runEpoch (List.range 25).length
        (MNISTIterator.initIter 10 0 (List.range 25) (List.replicate 25 0)
          (List.range 25))).2.BeforeFirst.img = List.range 25 ∧
     (MNISTIterator.runEpoch (List.range 25).length
        (MNISTIterator.initIter 10 0 (List.range 25) (List.replicate 25 0)
          (List.range 25))).2.BeforeFirst.labels = List.replicate 25 0 ∧
     (MNISTIterator.runEpoch (List.range 25).length
        (MNISTIterator.initIter 10 0 (List.range 25) (List.replicate 25 0)
          (List.range 25))).2.BeforeFirst.inst = List.range 25)) :=
  ⟨⟨by decide, by decide⟩,
   claimC6 Nat 10 0 (List.range 25) (List.replicate 25 0) (List.range 25)
     (by decide) (by decide)⟩

/-- The modelled seeded shuffle is a permutation of its input list. -/
theorem shuffleModel_perm (seed : Nat) (l : List α) : (shuffleModel seed l).Perm l := by
  have h1 : (shuffleModel seed l).Perm (List.ofFn l.get) := by
    unfold shuffleModel
    exact Equiv.Perm.ofFn_comp_perm (fyPerm seed l.length) l.get
  have h2 : List.ofFn l.get = l := List.ofFn_get l
  rw [h2] at h1
  exact h1

/-- `getD` of a mapped list at an in-range index. -/
theorem listGetD_map_lt {β : Type} (f : Nat → β) (l : List Nat) (i : Nat) (d : β)
    (h : i < l.length) : (l.map f).getD i d = f (l.getD i 0) := by
  rw [List.getD_eq_getElem _ _ (by simpa using h), List.getD_eq_getElem _ _ h]
  simp

/-- Every entry of a list that is a permutation of
`[off, off+1, …, off+N-1]` recovers, after subtracting the offset, a valid
source row index. -/
theorem shuffle_id_range {l : List Nat} {N off : Nat}
    (hp : l.Perm ((List.range N).map (fun j => j + off)))
    {i : Nat} (hi : i < l.length) : l.getD i 0 - off < N := by
  have hmem : l.getD i 0 ∈ l := by
    rw [List.getD_eq_getElem _ _ hi]
    exact List.getElem_mem _
  have h2 := hp.mem_iff.mp hmem
  simp only [List.mem_map, List.mem_range] at h2
  obtain ⟨j, hj, he⟩ := h2
  omega

/-- Claim C7: shuffle is an identity-preserving permutation. After
`Shuffle()` the multiset of instance identities is unchanged; for every
position `i` the data and label stored at `i` are those that were stored at
position `identity[i] - index_offset` before the shuffle (a valid source
row); and the resulting identity order is a function of the seed alone (two
iterators with the same identities shuffle identically under the same
seed). -/
theorem claimC7 (α : Type) [Inhabited α] (seed : Nat) (s : MNISTIterator α)
    (hperm : s.inst.Perm ((List.range s.img.length).map (fun j => j + s.inst_offset))) :
    ((s.Shuffle seed).inst.Perm s.inst) ∧
    (∀ i, i < (s.Shuffle seed).inst.length →
      ((s.Shuffle seed).inst.getD i 0 - s.inst_offset < s.img.length ∧
       (s.Shuffle seed).img.getD i default =
         s.img.getD ((s.Shuffle seed).inst.getD i 0 - s.inst_offset) default ∧
       (s.Shuffle seed).labels.getD i 0 =
         s.labels.getD ((s.Shuffle seed).inst.getD i 0 - s.inst_offset) 0)) ∧
    (∀ t : MNISTIterator α, t.inst = s.inst →
      (t.Shuffle seed).inst = (s.Shuffle seed).inst) := by
  have hsi : (s.Shuffle seed).inst = shuffleModel seed s.inst := rfl
  have hsimg : (s.Shuffle seed).img =
      (shuffleModel seed s.inst).map (fun j => s.img.getD (j - s.inst_offset) default) := rfl
  have hslab : (s.Shuffle seed).labels =
      (shuffleModel seed s.inst).map (fun j => s.labels.getD (j - s.inst_offset) 0) := rfl
  have hper := shuffleModel_perm seed s.inst
  refine ⟨?_, ?_, ?_⟩
  · rw [hsi]
    exact hper
  · intro i hi
    rw [hsi] at hi
    rw [hsi, hsimg, hslab]
    refine ⟨?_, ?_, ?_⟩
    · exact shuffle_id_range (hper.trans hperm) hi
    · exact listGetD_map_lt _ _ i default hi
    · exact listGetD_map_lt _ _ i 0 hi
  · intro t ht
    show shuffleModel seed t.inst = shuffleModel seed s.inst
    rw [ht]

/-- Witness for C7: three instances with `index_offset = 5` and identities
`[6, 5, 7]` (a permutation of `[5, 6, 7]`). -/
theorem claimC7_witness :
    (fun s : MNISTIterator Nat =>
      s.inst.Perm ((List.range s.img.length).map (fun j => j + s.inst_offset)) ∧
      (((s.Shuffle 0).inst.Perm s.inst) ∧
       (∀ i, i < (s.Shuffle 0).inst.length →
         ((s.Shuffle 0).inst.getD i 0 - s.inst_offset < s.img.length ∧
          (s.Shuffle 0).img.getD i default =
            s.img.getD ((s.Shuffle 0).inst.getD i 0 - s.inst_offset) default ∧
          (s.Shuffle 0).labels.getD i 0 =
            s.labels.getD ((s.Shuffle 0).inst.getD i 0 - s.inst_offset) 0)) ∧
       (∀ t : MNISTIterator Nat, t.inst = s.inst →
         (t.Shuffle 0).inst = (s.Shuffle 0).inst)))
      ⟨0, 2, 5, [10, 20, 30], [1, 2, 3], [6, 5, 7], [], [], []⟩ :=
  ⟨by decide,
   claimC7 Nat 0 ⟨0, 2, 5, [10, 20, 30], [1, 2, 3], [6, 5, 7], [], [], []⟩ (by decide)⟩

/-- Claim C10: after loading, the identity at position `i` is
`i + index_offset`; shuffling preserves the property that the identities are
a permutation of `{index_offset, …, index_offset + N - 1}` (so shuffling
twice in a row still permutes correctly), and every shuffled identity
recovers a valid source row as `identity[i] - index_offset`. -/
theorem claimC10 (N off seed : Nat) (inst : List Nat)
    (hperm : inst.Perm ((List.range N).map (fun j => j + off))) :
    (∀ i, i < N → (loadLabelInst N off).getD i 0 = i + off) ∧
    ((shuffleModel seed inst).Perm ((List.range N).map (fun j => j + off))) ∧
    (∀ i, i < (shuffleModel seed inst).length →
      (shuffleModel seed inst).getD i 0 - off < N) := by
  refine ⟨?_, ?_, ?_⟩
  · intro i hi
    unfold loadLabelInst
    rw [listGetD_map_lt _ _ i 0 (by simpa using hi)]
    have hr : (List.range N).getD i 0 = i := by
      rw [List.getD_eq_getElem _ _ (by simpa using hi)]
      simp
    rw [hr]
  · exact (shuffleModel_perm seed inst).trans hperm
  · intro i hi
    exact shuffle_id_range ((shuffleModel_perm seed inst).trans hperm) hi

/-- Witness for C10: `N = 3`, `index_offset = 5`, identities `[6, 5, 7]`. -/
theorem claimC10_witness :
    (([6, 5, 7] : List Nat).Perm ((List.range 3).map (fun j => j + 5))) ∧
    ((∀ i, i < 3 → (loadLabelInst 3 5).getD i 0 = i + 5) ∧
     ((shuffleModel 0 [6, 5, 7]).Perm ((List.range 3).map (fun j => j + 5))) ∧
     (∀ i, i < (shuffleModel 0 ([6, 5, 7] : List Nat)).length →
       (shuffleModel 0 ([6, 5, 7] : List Nat)).getD i 0 - 5 < 3)) :=
  ⟨by decide, claimC10 3 5 0 [6, 5, 7] (by decide)⟩
